import Mathlib

set_option maxHeartbeats 1000000

/-
Shallow embedding of the alphavantage retrieval-and-normalization core:
`alphavantage/utils/error_handling.py` (RequestRetryHandler),
`alphavantage/core/periods.py` (Period, Interval) and
`alphavantage/api/alpha_vantage.py` (AlphaVantageAPI).  The HTTP layer
(`requests.Session.request`) is abstracted by an oracle assigning to each
0-indexed attempt its outcome; time.sleep is modelled by accumulating the
requested delays as exact rationals (the Python floats involved, 0.5 * 2^k,
are all exactly representable).
-/

namespace AV

/-- Enumeration of history periods, from `core/periods.py` (`Period`). -/
inductive Period where
  | INTRADAY
  | DAILY
  | WEEKLY
  | MONTHLY
deriving DecidableEq

/-- The provider-facing `value` string of each `Period` member. -/
def periodValue : Period → String
  | Period.INTRADAY => "intraday"
  | Period.DAILY => "daily"
  | Period.WEEKLY => "weekly"
  | Period.MONTHLY => "monthly"

/-- Enumeration of intraday intervals, from `core/periods.py` (`Interval`). -/
inductive Interval where
  | ONE_MIN
  | FIVE_MIN
  | FIFTEEN_MIN
  | THIRTY_MIN
  | SIXTY_MIN
deriving DecidableEq

/-- The provider-facing `value` string of each `Interval` member. -/
def intervalValue : Interval → String
  | Interval.ONE_MIN => "1min"
  | Interval.FIVE_MIN => "5min"
  | Interval.FIFTEEN_MIN => "15min"
  | Interval.THIRTY_MIN => "30min"
  | Interval.SIXTY_MIN => "60min"

/-- Python `str.upper()` as used on the period value strings (ASCII). -/
def pyUpper (s : String) : String := String.mk (s.data.map Char.toUpper)

/-- `AlphaVantageAPI.COIN_NAMES`: the fixed allow-list of crypto tickers. -/
def COIN_NAMES : List String :=
  ["BTC", "ETH", "DOGE", "AVAX", "SHIB", "LINK", "BCH", "LTC", "ETC", "AAVE"]

/-- `symbol in self.COIN_NAMES` (line 80 of `alpha_vantage.py`). -/
def is_crypto_symbol (symbol : String) : Bool := COIN_NAMES.contains symbol

/--
The failure values the pipeline can surface, one constructor per `raise`
site reachable from the embedded code:
`invalidArgument` is the `ValueError` of `get_historical_data`;
`httpStatus` is the `requests.HTTPError` from `response.raise_for_status()`;
`retryExhausted` is the final `requests.HTTPError` of `request_with_retry`;
`indexError` is the `[0]` on an empty match list in `_parse_time_series_data`;
`dateParseError` is a `pd.to_datetime` failure; `valueError` an
`astype(float)` failure; `keyError` a missing price column in `df[...]`.
-/
inductive AVError where
  | invalidArgument (msg : String)
  | httpStatus (status : Nat)
  | retryExhausted (msg : String)
  | indexError
  | dateParseError
  | valueError
  | keyError
deriving DecidableEq

/--
A parsed pandas timestamp: `epoch` is an order-preserving encoding of the
parsed instant, `tzAware` records whether the parsed value carries timezone
information (pandas produces aware values only when the input string carries
an explicit offset).
-/
structure Timestamp where
  epoch : Nat
  tzAware : Bool
deriving DecidableEq

/-- A per-timestamp field mapping, e.g. `{"4. close": "42000.5"}`. -/
abbrev FieldMap := List (String × String)

/-- The value of a time-series key: timestamp string → fields. -/
abbrev Block := List (String × FieldMap)

/-- The raw JSON payload: an ordered top-level mapping (Python dicts keep
insertion order, which `[... for key in data.keys()][0]` relies on). -/
abbrev Payload := List (String × Block)

/-- One normalized series: (timestamp, price) pairs; `none` models a pandas
`NaN` cell (a row missing the selected column). -/
abbrev PSeries := List (Timestamp × Option Rat)

/-- Does `needle` occur at the start of `hay`? -/
def subStart : List Char → List Char → Bool
  | _, [] => true
  | [], _ :: _ => false
  | a :: as, b :: bs => (a == b) && subStart as bs

/-- Does `needle` occur contiguously anywhere in `hay`? -/
def containsSub : List Char → List Char → Bool
  | [], needle => needle.isEmpty
  | a :: t, needle => subStart (a :: t) needle || containsSub t needle

/-- Python's `needle in hay` substring test on strings. -/
def strContains (hay needle : String) : Bool := containsSub hay.data needle.data

/-- Value of a digit string, `none` on any non-digit. -/
def digitsValAux (acc : Nat) : List Char → Option Nat
  | [] => some acc
  | c :: cs =>
    if c.isDigit then digitsValAux (acc * 10 + (c.toNat - 48)) cs else none

/-- Value of a digit string, `none` on any non-digit. -/
def digitsVal (cs : List Char) : Option Nat := digitsValAux 0 cs

/-- Order-preserving encoding of a validated date-time into one natural. -/
def encodeDT (ys ms ds hs mins ss : List Char) : Option Nat :=
  (digitsVal ys).bind fun y =>
  (digitsVal ms).bind fun mo =>
  (digitsVal ds).bind fun d =>
  (digitsVal hs).bind fun hh =>
  (digitsVal mins).bind fun mi =>
  (digitsVal ss).bind fun sec =>
  if 1 ≤ mo ∧ mo ≤ 12 ∧ 1 ≤ d ∧ d ≤ 31 ∧ hh ≤ 23 ∧ mi ≤ 59 ∧ sec ≤ 59 then
    some (((y * 400 + mo) * 40 + d) * 100000 + (hh * 3600 + mi * 60 + sec))
  else
    none

/--
Modelled from the external library call `pandas.to_datetime` on one index
string, restricted to the shapes this provider emits: a date `YYYY-MM-DD` or
a date-time `YYYY-MM-DD HH:MM:SS` parses to a naive (`tzAware = false`)
timestamp; a date-time carrying an explicit offset `...+HH:MM` parses to an
aware timestamp; any other shape fails (pandas raises).  Awareness depends
only on the string itself.
-/
def pd_to_datetime (s : String) : Option Timestamp :=
  match s.data with
  | [y1, y2, y3, y4, '-', mo1, mo2, '-', d1, d2] =>
    (encodeDT [y1, y2, y3, y4] [mo1, mo2] [d1, d2] [] [] []).map
      (fun e => Timestamp.mk e false)
  | [y1, y2, y3, y4, '-', mo1, mo2, '-', d1, d2, ' ',
     h1, h2, ':', mi1, mi2, ':', s1, s2] =>
    (encodeDT [y1, y2, y3, y4] [mo1, mo2] [d1, d2] [h1, h2] [mi1, mi2] [s1, s2]).map
      (fun e => Timestamp.mk e false)
  | [y1, y2, y3, y4, '-', mo1, mo2, '-', d1, d2, ' ',
     h1, h2, ':', mi1, mi2, ':', s1, s2, '+', z1, z2, ':', z3, z4] =>
    (encodeDT [y1, y2, y3, y4] [mo1, mo2] [d1, d2] [h1, h2] [mi1, mi2] [s1, s2]).bind
      (fun e => (digitsVal [z1, z2]).bind fun _ =>
        (digitsVal [z3, z4]).map fun _ => Timestamp.mk e true)
  | _ => none

/-- Split a char list at the first dot, if any. -/
def splitDot : List Char → List Char × Option (List Char)
  | [] => ([], none)
  | c :: cs =>
    if c = '.' then ([], some cs)
    else
      let r := splitDot cs
      (c :: r.1, r.2)

/--
Modelled from the external conversion `DataFrame.astype(float)` applied to
one cell string, restricted to plain decimal literals (the provider's number
format): an optional minus sign, digits, optionally a dot and digits.
Anything else fails (pandas raises `ValueError`).  Exact rationals stand in
for the float64 values; every literal the claims exercise is exactly
representable in float64 as well.
-/
def parse_float (s : String) : Option Rat :=
  let split :=
    match s.data with
    | '-' :: rest => (true, rest)
    | l => (false, l)
  match splitDot split.2 with
  | (ip, none) =>
    if ip.isEmpty then none
    else (digitsVal ip).map fun n => if split.1 then -(n : Rat) else (n : Rat)
  | (ip, some fp) =>
    if ip.isEmpty ∨ fp.isEmpty then none
    else
      (digitsVal ip).bind fun n =>
      (digitsVal fp).map fun f =>
        let q : Rat := (n : Rat) + (f : Rat) / ((10 : Rat) ^ fp.length)
        if split.1 then -q else q

/-- `AlphaVantageAPI._get_function_name` (lines 101-121). -/
def get_function_name (is_crypto : Bool) (period : Period) (adjusted : Bool) : String :=
  if is_crypto then
    let base := if period = Period.INTRADAY then "CRYPTO" else "DIGITAL_CURRENCY"
    base ++ "_" ++ pyUpper (periodValue period)
  else
    let base := "TIME_SERIES"
    if period ≠ Period.INTRADAY ∧ adjusted = true then
      base ++ "_" ++ pyUpper (periodValue period) ++ "_ADJUSTED"
    else
      base ++ "_" ++ pyUpper (periodValue period)

/--
The function identifier required by the decision table of spec section 4.2,
written out literally from the spec's words (spec-side definition, to be
compared with `get_function_name`).
-/
def spec_function_id : Bool → Period → Bool → String
  | true, Period.INTRADAY, _ => "CRYPTO_INTRADAY"
  | true, Period.DAILY, _ => "DIGITAL_CURRENCY_DAILY"
  | true, Period.WEEKLY, _ => "DIGITAL_CURRENCY_WEEKLY"
  | true, Period.MONTHLY, _ => "DIGITAL_CURRENCY_MONTHLY"
  | false, Period.INTRADAY, _ => "TIME_SERIES_INTRADAY"
  | false, Period.DAILY, true => "TIME_SERIES_DAILY_ADJUSTED"
  | false, Period.DAILY, false => "TIME_SERIES_DAILY"
  | false, Period.WEEKLY, true => "TIME_SERIES_WEEKLY_ADJUSTED"
  | false, Period.WEEKLY, false => "TIME_SERIES_WEEKLY"
  | false, Period.MONTHLY, true => "TIME_SERIES_MONTHLY_ADJUSTED"
  | false, Period.MONTHLY, false => "TIME_SERIES_MONTHLY"

/-- The price-column choice of `_parse_time_series_data` (lines 144-147). -/
def price_column (is_crypto : Bool) (period : Period) (adjusted : Bool) : String :=
  if is_crypto then "4. close"
  else if adjusted = true ∧ period ≠ Period.INTRADAY then "5. adjusted close"
  else "4. close"

/--
The price-column choice stated by the spec (section 4.3): crypto always
takes the close field; an equity takes the adjusted-close field exactly when
`adjusted` is true and the period is not intraday (spec-side definition, to
be compared with `price_column`).
-/
def spec_price_column : Bool → Period → Bool → String
  | true, _, _ => "4. close"
  | false, period, adjusted =>
    if adjusted = true ∧ period ≠ Period.INTRADAY then "5. adjusted close"
    else "4. close"

/-- All-or-nothing traversal in the `Option` monad (pandas conversions raise
on the first bad element, so either every element parses or the call fails). -/
def optMapM (f : α → Option β) : List α → Option (List β)
  | [] => some []
  | a :: as =>
    match f a, optMapM f as with
    | some b, some bs => some (b :: bs)
    | _, _ => none

/-- `astype(float)` on one row of the block: every field string must parse. -/
def parse_row (kv : String × FieldMap) : Option (List (String × Rat)) :=
  optMapM (fun f => (parse_float f.2).map (fun q => (f.1, q))) kv.2

/-- The DataFrame's column set (union of every row's field names). -/
def block_columns (block : Block) : List String :=
  (block.map (fun kv => kv.2.map Prod.fst)).flatten

/-- Stable insertion of one (timestamp, price) pair, ordered by `epoch`. -/
def insertPair (x : Timestamp × Option Rat) : PSeries → PSeries
  | [] => [x]
  | y :: ys => if x.1.epoch ≤ y.1.epoch then x :: y :: ys else y :: insertPair x ys

/-- `series.sort_index()`: sort ascending by timestamp. -/
def sortPairs : PSeries → PSeries
  | [] => []
  | x :: xs => insertPair x (sortPairs xs)

/-- Key-level counterpart of `insertPair`. -/
def insertKey (t : Timestamp) : List Timestamp → List Timestamp
  | [] => [t]
  | u :: us => if t.epoch ≤ u.epoch then t :: u :: us else u :: insertKey t us

/-- Key-level counterpart of `sortPairs`. -/
def sortKeys : List Timestamp → List Timestamp
  | [] => []
  | t :: ts => insertKey t (sortKeys ts)

/-- The filter of the key comprehension in `_parse_time_series_data`
(line 138-139): `"Time Series" in key or
"Time Series (Digital Currency Daily)" in key`. -/
def keyMatches (key : String) : Bool :=
  strContains key "Time Series" || strContains key "Time Series (Digital Currency Daily)"

/-- `[key for key in data.keys() if ...]`: the matching top-level keys, in
payload order. -/
def time_series_keys (data : Payload) : List String :=
  (data.map Prod.fst).filter keyMatches

/--
The body of `_parse_time_series_data` after the key has been located:
build the DataFrame from the block, convert the index with `pd.to_datetime`
(first failure raises), convert every cell with `astype(float)` (first
failure raises), select the price column (`KeyError` if it is not a column),
and sort the resulting series ascending by timestamp.
-/
def parse_block (block : Block) (period : Period) (is_crypto adjusted : Bool) :
    Except AVError PSeries :=
  match optMapM (fun kv => pd_to_datetime kv.1) block with
  | none => Except.error AVError.dateParseError
  | some idx =>
    match optMapM parse_row block with
    | none => Except.error AVError.valueError
    | some rows =>
      let col := price_column is_crypto period adjusted
      if (block_columns block).contains col then
        Except.ok (sortPairs (idx.zip (rows.map (fun r => List.lookup col r))))
      else Except.error AVError.keyError

/-- `AlphaVantageAPI._parse_time_series_data` (lines 123-151): take the first
key whose name matches (`[0]` raises `IndexError` on an empty list), then
normalize the block stored under it. -/
def parse_time_series_data (data : Payload) (period : Period) (is_crypto adjusted : Bool) :
    Except AVError PSeries :=
  match time_series_keys data with
  | [] => Except.error AVError.indexError
  | key :: _ => parse_block ((List.lookup key data).getD []) period is_crypto adjusted

/-- `RequestRetryHandler.__init__` state (max_retries, backoff_factor,
status_forcelist). -/
structure RequestRetryHandler where
  max_retries : Nat
  backoff_factor : Rat
  status_forcelist : List Nat

/-- The defaults: 5 retries, backoff factor 0.5, forcelist
[429, 500, 502, 503, 504]. -/
def defaultHandler : RequestRetryHandler :=
  RequestRetryHandler.mk 5 (1 / 2) [429, 500, 502, 503, 504]

/-- What one `session.request` call can produce: a response with a status
code and (if any) a JSON body, a `requests.ConnectionError`, or a
`requests.Timeout`. -/
inductive AttemptOutcome where
  | response (status : Nat) (payload : Payload)
  | connectionError
  | timeout
deriving DecidableEq

/-- Is this outcome caught by the `except` clause of the loop body?  A
response whose status is in the forcelist is re-raised as `HTTPError` and
caught; connection errors and timeouts are caught; anything else returns. -/
def isRetryable (h : RequestRetryHandler) (o : AttemptOutcome) : Bool :=
  match o with
  | AttemptOutcome.response s _ => h.status_forcelist.contains s
  | AttemptOutcome.connectionError => true
  | AttemptOutcome.timeout => true

/-- Outcome of `request_with_retry`: either the returned response or the
final `requests.HTTPError` raised after the loop, whose message carries only
the retry count. -/
inductive RetryResult where
  | ok (status : Nat) (payload : Payload)
  | exhausted (message : String)
deriving DecidableEq

/--
The loop of `RequestRetryHandler.request_with_retry` (lines 40-50), one
iteration per unit of `remaining` fuel; `attempt` is the loop index, `slept`
the accumulated `time.sleep` total.  Each caught failure sleeps
`backoff_factor * 2 ^ attempt` (also after the last attempt) and continues;
a response outside the forcelist returns at once.
-/
def request_with_retry_go (h : RequestRetryHandler) (oracle : Nat → AttemptOutcome) :
    Nat → Nat → Rat → RetryResult × Nat × Rat
  | attempt, 0, slept =>
    (RetryResult.exhausted ("All " ++ toString h.max_retries ++ " retry attempts failed."),
     attempt, slept)
  | attempt, r + 1, slept =>
    match oracle attempt with
    | AttemptOutcome.response s pl =>
      if h.status_forcelist.contains s then
        request_with_retry_go h oracle (attempt + 1) r
          (slept + h.backoff_factor * 2 ^ attempt)
      else
        (RetryResult.ok s pl, attempt + 1, slept)
    | AttemptOutcome.connectionError =>
      request_with_retry_go h oracle (attempt + 1) r
        (slept + h.backoff_factor * 2 ^ attempt)
    | AttemptOutcome.timeout =>
      request_with_retry_go h oracle (attempt + 1) r
        (slept + h.backoff_factor * 2 ^ attempt)

/-- `RequestRetryHandler.request_with_retry`, returning (outcome, number of
attempts issued, total time slept). -/
def request_with_retry (h : RequestRetryHandler) (oracle : Nat → AttemptOutcome) :
    RetryResult × Nat × Rat :=
  request_with_retry_go h oracle 0 h.max_retries 0

/-- `requests.Response.raise_for_status` (external library): raises
`HTTPError` exactly on 4xx and 5xx status codes. -/
def raise_for_status (status : Nat) : Except AVError Unit :=
  if 400 ≤ status ∧ status < 600 then Except.error (AVError.httpStatus status)
  else Except.ok Unit.unit

/-- `AlphaVantageAPI._make_request` (lines 45-61): add the api key to the
parameters, run the retrying request, then `raise_for_status` and return the
JSON body. -/
def make_request (api_key : String) (h : RequestRetryHandler)
    (params : List (String × Option String)) (oracle : Nat → AttemptOutcome) :
    Except AVError Payload × Nat × Rat :=
  let _ps := params ++ [("apikey", some api_key)]
  match request_with_retry h oracle with
  | (RetryResult.ok status payload, n, d) =>
    match raise_for_status status with
    | Except.ok _ => (Except.ok payload, n, d)
    | Except.error e => (Except.error e, n, d)
  | (RetryResult.exhausted msg, n, d) =>
    (Except.error (AVError.retryExhausted msg), n, d)

/--
`AlphaVantageAPI.get_historical_data` (lines 63-99): classify the symbol,
pick the function name, build the parameters, validate that an interval is
present for intraday queries (`ValueError` before any request is issued),
then request and normalize.  Returns (result, attempts issued, time slept).
-/
def get_historical_data (api_key : String) (h : RequestRetryHandler)
    (oracle : Nat → AttemptOutcome) (symbol : String) (period : Period)
    (interval : Option Interval) (adjusted : Bool) :
    Except AVError PSeries × Nat × Rat :=
  let is_crypto := is_crypto_symbol symbol
  let fn := get_function_name is_crypto period adjusted
  let params₀ : List (String × Option String) :=
    [("function", some fn), ("symbol", some symbol),
     ("market", if is_crypto then some "USD" else none),
     ("outputsize", some "full")]
  if period = Period.INTRADAY ∧ interval = none then
    (Except.error (AVError.invalidArgument "Interval must be specified for intraday data"),
     0, 0)
  else
    let params₁ := params₀ ++
      (match period, interval with
       | Period.INTRADAY, some iv => [("interval", some (intervalValue iv))]
       | _, _ => [])
    let params := params₁ ++
      (if is_crypto = false ∧ period ≠ Period.INTRADAY then
        [("adjusted", some (if adjusted then "true" else "false"))]
       else [])
    match make_request api_key h params oracle with
    | (Except.ok data, n, d) => (parse_time_series_data data period is_crypto adjusted, n, d)
    | (Except.error e, n, d) => (Except.error e, n, d)

/-- Fail-fast traversal in the `Except` monad: the sequential fetch loop of
`get_assets` propagates the first exception. -/
def exMapM (f : α → Except ε β) : List α → Except ε (List β)
  | [] => Except.ok []
  | a :: as =>
    match f a with
    | Except.error e => Except.error e
    | Except.ok b =>
      match exMapM f as with
      | Except.error e => Except.error e
      | Except.ok bs => Except.ok (b :: bs)

/-- Value of a series at a timestamp; `none` when the timestamp is absent
(or its cell is NaN), the cases `dropna` removes. -/
def lookupTs (s : PSeries) (t : Timestamp) : Option Rat :=
  match s.find? (fun p => p.1 == t) with
  | some p => p.2
  | none => none

/--
`pd.concat(dfs, axis=1)` followed by `.dropna()`: the surviving rows are
exactly the timestamps at which every series has a value.  Every such
timestamp occurs in the first series, so the first series' index (already
ascending) enumerates the candidates in order.
-/
def table_rows (dfs : List PSeries) : List (Timestamp × List (Option Rat)) :=
  match dfs with
  | [] => []
  | s0 :: rest =>
    (s0.map Prod.fst).filterMap (fun t =>
      if ((s0 :: rest).map (fun s => lookupTs s t)).all Option.isSome then
        some (t, (s0 :: rest).map (fun s => lookupTs s t))
      else none)

/-- `AlphaVantageAPI.get_assets` (lines 163-192), with the per-symbol
`get_historical_data` call abstracted as `fetch`: reject an empty symbol
list, fetch each symbol sequentially (fail-fast), then concat and dropna.
The columns are the symbols, in input order. -/
def get_assets (fetch : String → Except AVError PSeries) (symbols : List String) :
    Except AVError (List String × List (Timestamp × List (Option Rat))) :=
  if symbols.isEmpty then Except.error (AVError.invalidArgument "Empty symbols input.")
  else
    match exMapM fetch symbols with
    | Except.error e => Except.error e
    | Except.ok dfs => Except.ok (symbols, table_rows dfs)

/-- Is an `Except` value a success? -/
def exceptIsOk : Except ε α → Bool
  | Except.ok _ => true
  | Except.error _ => false

/-! Lemmas about the retry loop. -/

lemma go_step_retryable (h : RequestRetryHandler) (oracle : Nat → AttemptOutcome)
    (a r : Nat) (slept : Rat) (hr : isRetryable h (oracle a) = true) :
    request_with_retry_go h oracle a (r + 1) slept =
      request_with_retry_go h oracle (a + 1) r (slept + h.backoff_factor * 2 ^ a) := by
  cases ho : oracle a with
  | response s pl =>
    have hs : s ∈ h.status_forcelist := by
      have hr2 := hr
      simp [isRetryable, ho] at hr2
      exact hr2
    simp [request_with_retry_go, ho, hs]
  | connectionError => simp [request_with_retry_go, ho]
  | timeout => simp [request_with_retry_go, ho]

lemma go_step_ok (h : RequestRetryHandler) (oracle : Nat → AttemptOutcome)
    (a r : Nat) (slept : Rat) (s : Nat) (pl : Payload)
    (ho : oracle a = AttemptOutcome.response s pl)
    (hs : h.status_forcelist.contains s = false) :
    request_with_retry_go h oracle a (r + 1) slept = (RetryResult.ok s pl, a + 1, slept) := by
  have hs2 : s ∉ h.status_forcelist := by
    simpa using hs
  simp [request_with_retry_go, ho, hs2]

lemma go_exhaust (h : RequestRetryHandler) (oracle : Nat → AttemptOutcome) :
    ∀ (r a : Nat) (slept : Rat),
      (∀ i, i < r → isRetryable h (oracle (a + i)) = true) →
      request_with_retry_go h oracle a r slept =
        (RetryResult.exhausted ("All " ++ toString h.max_retries ++ " retry attempts failed."),
         a + r, slept + ∑ i ∈ Finset.range r, h.backoff_factor * 2 ^ (a + i)) := by
  intro r
  induction r with
  | zero =>
    intro a slept _
    simp [request_with_retry_go]
  | succ n ih =>
    intro a slept hfail
    have h0 : isRetryable h (oracle a) = true := by
      simpa using hfail 0 (Nat.succ_pos n)
    rw [go_step_retryable h oracle a n slept h0]
    rw [ih (a + 1) (slept + h.backoff_factor * 2 ^ a)
        (fun i hi => by
          have hf := hfail (i + 1) (by omega)
          rwa [show a + (i + 1) = a + 1 + i from by omega] at hf)]
    have h1 : ∑ i ∈ Finset.range n, h.backoff_factor * 2 ^ (a + (i + 1))
        = ∑ i ∈ Finset.range n, h.backoff_factor * 2 ^ (a + 1 + i) :=
      Finset.sum_congr rfl (fun i _ => by
        rw [show a + (i + 1) = a + 1 + i from by omega])
    have hsum : slept + h.backoff_factor * 2 ^ a
          + ∑ i ∈ Finset.range n, h.backoff_factor * 2 ^ (a + 1 + i)
        = slept + ∑ i ∈ Finset.range (n + 1), h.backoff_factor * 2 ^ (a + i) := by
      rw [Finset.sum_range_succ', h1, Nat.add_zero]
      ring
    rw [show a + 1 + n = a + (n + 1) from by omega, hsum]

lemma go_succ_after (h : RequestRetryHandler) (oracle : Nat → AttemptOutcome)
    (s : Nat) (pl : Payload) :
    ∀ (k a r : Nat) (slept : Rat), k < r →
      (∀ i, i < k → isRetryable h (oracle (a + i)) = true) →
      oracle (a + k) = AttemptOutcome.response s pl →
      h.status_forcelist.contains s = false →
      request_with_retry_go h oracle a r slept =
        (RetryResult.ok s pl, a + k + 1,
         slept + ∑ i ∈ Finset.range k, h.backoff_factor * 2 ^ (a + i)) := by
  intro k
  induction k with
  | zero =>
    intro a r slept hk hfail hsucc hns
    obtain ⟨r1, rfl⟩ : ∃ r1, r = r1 + 1 := ⟨r - 1, by omega⟩
    rw [go_step_ok h oracle a r1 slept s pl (by simpa using hsucc) hns]
    simp
  | succ n ih =>
    intro a r slept hk hfail hsucc hns
    obtain ⟨r1, rfl⟩ : ∃ r1, r = r1 + 1 := ⟨r - 1, by omega⟩
    have h0 : isRetryable h (oracle a) = true := by
      simpa using hfail 0 (Nat.succ_pos n)
    rw [go_step_retryable h oracle a r1 slept h0]
    rw [ih (a + 1) r1 (slept + h.backoff_factor * 2 ^ a) (by omega)
        (fun i hi => by
          have hf := hfail (i + 1) (by omega)
          rwa [show a + (i + 1) = a + 1 + i from by omega] at hf)
        (by rwa [show a + (n + 1) = a + 1 + n from by omega] at hsucc) hns]
    have h1 : ∑ i ∈ Finset.range n, h.backoff_factor * 2 ^ (a + (i + 1))
        = ∑ i ∈ Finset.range n, h.backoff_factor * 2 ^ (a + 1 + i) :=
      Finset.sum_congr rfl (fun i _ => by
        rw [show a + (i + 1) = a + 1 + i from by omega])
    have hsum : slept + h.backoff_factor * 2 ^ a
          + ∑ i ∈ Finset.range n, h.backoff_factor * 2 ^ (a + 1 + i)
        = slept + ∑ i ∈ Finset.range (n + 1), h.backoff_factor * 2 ^ (a + i) := by
      rw [Finset.sum_range_succ', h1, Nat.add_zero]
      ring
    rw [show a + 1 + n + 1 = a + (n + 1) + 1 from by omega, hsum]

/--
C3: for every attempt sequence whose first `k` attempts (`k < max_retries`)
yield a retryable outcome (forcelist status, connection failure or timeout)
and whose attempt `k + 1` returns a non-forcelist response,
`request_with_retry` returns that response after exactly `k + 1` attempts,
and the total time slept is `∑ backoff_factor * 2 ^ i` for `i` in `[0, k)`.
-/
theorem c3_retry_backoff_success (h : RequestRetryHandler)
    (oracle : Nat → AttemptOutcome) (k s : Nat) (pl : Payload)
    (hk : k < h.max_retries)
    (hfail : ∀ i, i < k → isRetryable h (oracle i) = true)
    (hsucc : oracle k = AttemptOutcome.response s pl)
    (hns : h.status_forcelist.contains s = false) :
    request_with_retry h oracle =
      (RetryResult.ok s pl, k + 1, ∑ i ∈ Finset.range k, h.backoff_factor * 2 ^ i) := by
  have hg := go_succ_after h oracle s pl k 0 h.max_retries 0 hk
    (by simpa using hfail) (by simpa using hsucc) hns
  simpa [request_with_retry] using hg

/-- Concrete run for `c3_retry_backoff_success`: two 500 responses, then a
200 response. -/
def c3Oracle : Nat → AttemptOutcome := fun i =>
  if i < 2 then AttemptOutcome.response 500 [] else AttemptOutcome.response 200 []

theorem c3_retry_backoff_success_witness :
    (2 < defaultHandler.max_retries ∧
      (∀ i, i < 2 → isRetryable defaultHandler (c3Oracle i) = true) ∧
      c3Oracle 2 = AttemptOutcome.response 200 [] ∧
      defaultHandler.status_forcelist.contains 200 = false) ∧
    request_with_retry defaultHandler c3Oracle =
      (RetryResult.ok 200 [], 2 + 1,
       ∑ i ∈ Finset.range 2, defaultHandler.backoff_factor * 2 ^ i) :=
  ⟨⟨by decide, by decide, by decide, by decide⟩,
   c3_retry_backoff_success defaultHandler c3Oracle 2 200 []
     (by decide) (by decide) (by decide) (by decide)⟩

/--
C4 (amended): when every attempt yields a retryable outcome, the handler
makes exactly `max_retries` attempts and then raises a terminal
retry-exhausted `HTTPError` whose message carries the attempt count; the
last observed status/error is logged per attempt but is not carried by the
terminal failure.
-/
theorem c4_retry_exhausted (h : RequestRetryHandler) (oracle : Nat → AttemptOutcome)
    (hfail : ∀ i, i < h.max_retries → isRetryable h (oracle i) = true) :
    (request_with_retry h oracle).2.1 = h.max_retries ∧
    (request_with_retry h oracle).1 =
      RetryResult.exhausted ("All " ++ toString h.max_retries ++ " retry attempts failed.") := by
  have hg := go_exhaust h oracle h.max_retries 0 0 (by simpa using hfail)
  constructor <;> simp [request_with_retry, hg]

theorem c4_retry_exhausted_witness :
    (∀ i, i < defaultHandler.max_retries →
      isRetryable defaultHandler ((fun _ => AttemptOutcome.connectionError) i) = true) ∧
    ((request_with_retry defaultHandler (fun _ => AttemptOutcome.connectionError)).2.1 =
        defaultHandler.max_retries ∧
      (request_with_retry defaultHandler (fun _ => AttemptOutcome.connectionError)).1 =
        RetryResult.exhausted
          ("All " ++ toString defaultHandler.max_retries ++ " retry attempts failed.")) :=
  ⟨by decide,
   c4_retry_exhausted defaultHandler (fun _ => AttemptOutcome.connectionError) (by decide)⟩

/--
C4 counterexample: the claim says the terminal retry-exhausted failure
carries the last observed status/error.  It does not: two exhausted runs
whose every observed status differs (all-500 versus all-503) produce exactly
the same result, and the terminal failure's message mentions only the
attempt count.
-/
theorem c4_counterexample :
    request_with_retry defaultHandler (fun _ => AttemptOutcome.response 500 []) =
      request_with_retry defaultHandler (fun _ => AttemptOutcome.response 503 []) ∧
    (request_with_retry defaultHandler (fun _ => AttemptOutcome.response 500 [])).1 =
      RetryResult.exhausted "All 5 retry attempts failed." :=
  ⟨rfl, rfl⟩

/--
C5: an attempt whose response status is a non-retryable 4xx/5xx (not in the
forcelist) stops the loop at once — no further attempt, no further sleep —
and `_make_request` turns that response into a failure carrying that status
(`raise_for_status`), not into a successful result.
-/
theorem c5_nonretryable_immediate (api_key : String) (h : RequestRetryHandler)
    (params : List (String × Option String)) (oracle : Nat → AttemptOutcome)
    (j s : Nat) (pl : Payload)
    (hj : j < h.max_retries)
    (hfail : ∀ i, i < j → isRetryable h (oracle i) = true)
    (hjth : oracle j = AttemptOutcome.response s pl)
    (h4 : 400 ≤ s) (h6 : s < 600)
    (hnf : h.status_forcelist.contains s = false) :
    make_request api_key h params oracle =
      (Except.error (AVError.httpStatus s), j + 1,
       ∑ i ∈ Finset.range j, h.backoff_factor * 2 ^ i) := by
  have hr : request_with_retry h oracle =
      (RetryResult.ok s pl, j + 1, ∑ i ∈ Finset.range j, h.backoff_factor * 2 ^ i) := by
    have hg := go_succ_after h oracle s pl j 0 h.max_retries 0 hj
      (by simpa using hfail) (by simpa using hjth) hnf
    simpa [request_with_retry] using hg
  simp [make_request, hr, raise_for_status, h4, h6]

theorem c5_nonretryable_immediate_witness :
    (0 < defaultHandler.max_retries ∧
      (fun _ => AttemptOutcome.response 404 []) 0 = AttemptOutcome.response 404 [] ∧
      400 ≤ 404 ∧ 404 < 600 ∧
      defaultHandler.status_forcelist.contains 404 = false) ∧
    make_request "key" defaultHandler [] (fun _ => AttemptOutcome.response 404 []) =
      (Except.error (AVError.httpStatus 404), 0 + 1,
       ∑ i ∈ Finset.range 0, defaultHandler.backoff_factor * 2 ^ i) :=
  ⟨⟨by decide, rfl, by decide, by decide, by decide⟩,
   c5_nonretryable_immediate "key" defaultHandler [] (fun _ => AttemptOutcome.response 404 [])
     0 404 [] (by decide) (by omega) rfl (by decide) (by decide) (by decide)⟩

/--
C10: when every attempt fails with a retryable outcome, the loop body also
sleeps after the final failed attempt (attempt `max_retries - 1`), so the
total time slept on exhaustion is
`∑ i in [0, max_retries - 1), backoff_factor * 2 ^ i` plus the final
`backoff_factor * 2 ^ (max_retries - 1)` — the sum over `[0, max_retries)`,
not over `[0, max_retries - 1)`.
-/
theorem c10_sleep_after_last_attempt (h : RequestRetryHandler)
    (oracle : Nat → AttemptOutcome)
    (hpos : 0 < h.max_retries)
    (hfail : ∀ i, i < h.max_retries → isRetryable h (oracle i) = true) :
    (request_with_retry h oracle).2.2 =
      (∑ i ∈ Finset.range (h.max_retries - 1), h.backoff_factor * 2 ^ i)
        + h.backoff_factor * 2 ^ (h.max_retries - 1) := by
  have hg := go_exhaust h oracle h.max_retries 0 0 (by simpa using hfail)
  have htot : (request_with_retry h oracle).2.2 =
      ∑ i ∈ Finset.range h.max_retries, h.backoff_factor * 2 ^ i := by
    simp [request_with_retry, hg]
  rw [htot]
  obtain ⟨m, hm⟩ : ∃ m, h.max_retries = m + 1 := ⟨h.max_retries - 1, by omega⟩
  rw [hm]
  simp [Finset.sum_range_succ]

theorem c10_sleep_after_last_attempt_witness :
    (0 < defaultHandler.max_retries ∧
      (∀ i, i < defaultHandler.max_retries →
        isRetryable defaultHandler ((fun _ => AttemptOutcome.timeout) i) = true)) ∧
    (request_with_retry defaultHandler (fun _ => AttemptOutcome.timeout)).2.2 =
      (∑ i ∈ Finset.range (defaultHandler.max_retries - 1),
          defaultHandler.backoff_factor * 2 ^ i)
        + defaultHandler.backoff_factor * 2 ^ (defaultHandler.max_retries - 1) :=
  ⟨⟨by decide, by decide⟩,
   c10_sleep_after_last_attempt defaultHandler (fun _ => AttemptOutcome.timeout)
     (by decide) (by decide)⟩

/--
C1: for every combination of asset class, period and adjusted flag,
`_get_function_name` produces exactly the function identifier of the spec's
decision table: CRYPTO+INTRADAY gives CRYPTO_INTRADAY, crypto non-intraday
gives DIGITAL_CURRENCY_{PERIOD}, EQUITY+INTRADAY gives
TIME_SERIES_INTRADAY, and equity non-intraday gives
TIME_SERIES_{PERIOD}_ADJUSTED exactly when adjusted is true and
TIME_SERIES_{PERIOD} otherwise.  (`get_historical_data` passes
`is_crypto_symbol symbol` — membership in the fixed coin allow-list — as the
asset-class flag.)
-/
theorem c1_function_id_table (c : Bool) (p : Period) (a : Bool) :
    get_function_name c p a = spec_function_id c p a := by
  cases c <;> cases p <;> cases a <;> rfl

/--
C2: the price column `_parse_time_series_data` selects is the close field
whenever the asset class is crypto, and for equities the adjusted-close
field exactly when `adjusted` is true and the period is not INTRADAY, the
close field otherwise.
-/
theorem c2_price_column_table (c : Bool) (p : Period) (a : Bool) :
    price_column c p a = spec_price_column c p a := by
  cases c <;> cases p <;> cases a <;> rfl

/--
C8: a query with period INTRADAY and no interval fails at once with the
`ValueError` "Interval must be specified for intraday data": zero network
attempts are issued and zero time is slept, whatever the symbol (crypto or
equity), handler, oracle, api key or adjusted flag.
-/
theorem c8_intraday_requires_interval (api_key : String) (h : RequestRetryHandler)
    (oracle : Nat → AttemptOutcome) (symbol : String) (adjusted : Bool) :
    get_historical_data api_key h oracle symbol Period.INTRADAY none adjusted =
      (Except.error (AVError.invalidArgument "Interval must be specified for intraday data"),
       0, 0) := by
  rfl

/--
C6 (amended): `_parse_time_series_data` locates the data block under the
first top-level key, in payload order, whose name contains the substring
"Time Series"; when no key matches, the `[0]` subscript fails with an
`IndexError` surfaced to the caller; when several keys match, the first one
is used silently.
-/
theorem c6_first_time_series_key (data : Payload) (p : Period) (c a : Bool) :
    parse_time_series_data data p c a =
      (match ((data.map Prod.fst).filter keyMatches).head? with
       | none => Except.error AVError.indexError
       | some key => parse_block ((List.lookup key data).getD []) p c a) := by
  cases hk : time_series_keys data with
  | nil =>
    have hk2 : (data.map Prod.fst).filter keyMatches = [] := hk
    simp [parse_time_series_data, hk, hk2]
  | cons key rest =>
    have hk2 : (data.map Prod.fst).filter keyMatches = key :: rest := hk
    simp [parse_time_series_data, hk, hk2]

/-- A payload with two distinct keys both containing "Time Series". -/
def c6Payload : Payload :=
  [("Weekly Time Series", [("2024-01-05", [("4. close", "41")])]),
   ("Monthly Time Series", [("2024-01-06", [("4. close", "99")])])]

/--
C6 counterexample: the claim says an ambiguous payload (more than one
top-level key containing "Time Series") makes normalization fail.  On
`c6Payload`, which has two such keys, `_parse_time_series_data` does not
fail: it silently returns the series of the first matching block.
-/
theorem c6_counterexample :
    (time_series_keys c6Payload).length = 2 ∧
    parse_time_series_data c6Payload Period.DAILY false false =
      parse_block [("2024-01-05", [("4. close", "41")])] Period.DAILY false false ∧
    exceptIsOk (parse_time_series_data c6Payload Period.DAILY false false) = true :=
  ⟨rfl, rfl, rfl⟩

/-! Lemmas about the normalization pipeline. -/

lemma optMapM_length (f : α → Option β) :
    ∀ {l : List α} {bs : List β}, optMapM f l = some bs → bs.length = l.length := by
  intro l
  induction l with
  | nil =>
    intro bs hl
    simp [optMapM] at hl
    simp [hl.symm]
  | cons x xs ih =>
    intro bs hl
    cases hfa : f x with
    | none => simp [optMapM, hfa] at hl
    | some b =>
      cases hrest : optMapM f xs with
      | none => simp [optMapM, hfa, hrest] at hl
      | some bs2 =>
        simp [optMapM, hfa, hrest] at hl
        simp [hl.symm, ih hrest]

lemma optMapM_mem (f : α → Option β) :
    ∀ {l : List α} {bs : List β}, optMapM f l = some bs →
      ∀ b ∈ bs, ∃ a ∈ l, f a = some b := by
  intro l
  induction l with
  | nil =>
    intro bs hl
    simp [optMapM] at hl
    simp [hl]
  | cons x xs ih =>
    intro bs hl b hb
    cases hfa : f x with
    | none => simp [optMapM, hfa] at hl
    | some b0 =>
      cases hrest : optMapM f xs with
      | none => simp [optMapM, hfa, hrest] at hl
      | some bs2 =>
        simp [optMapM, hfa, hrest] at hl
        rw [hl.symm] at hb
        rcases List.mem_cons.mp hb with hb0 | hb2
        · exact ⟨x, List.mem_cons_self x xs, by rw [hfa, hb0]⟩
        · obtain ⟨a, ha, hfb⟩ := ih hrest b hb2
          exact ⟨a, List.mem_cons_of_mem x ha, hfb⟩

lemma insertPair_length (x : Timestamp × Option Rat) (l : PSeries) :
    (insertPair x l).length = l.length + 1 := by
  induction l with
  | nil => rfl
  | cons y ys ih =>
    by_cases hxy : x.1.epoch ≤ y.1.epoch
    · simp [insertPair, hxy]
    · simp [insertPair, hxy, ih]

lemma sortPairs_length (l : PSeries) : (sortPairs l).length = l.length := by
  induction l with
  | nil => rfl
  | cons x xs ih => simp [sortPairs, insertPair_length, ih]

lemma mem_insertPair (y x : Timestamp × Option Rat) (l : PSeries) :
    y ∈ insertPair x l ↔ y = x ∨ y ∈ l := by
  induction l with
  | nil => simp [insertPair]
  | cons z zs ih =>
    by_cases hxz : x.1.epoch ≤ z.1.epoch
    · simp [insertPair, hxz]
    · simp [insertPair, hxz, ih]
      tauto

lemma mem_sortPairs (y : Timestamp × Option Rat) (l : PSeries) :
    y ∈ sortPairs l ↔ y ∈ l := by
  induction l with
  | nil => simp [sortPairs]
  | cons x xs ih => simp [sortPairs, mem_insertPair, ih]

lemma map_fst_insertPair (x : Timestamp × Option Rat) (l : PSeries) :
    (insertPair x l).map Prod.fst = insertKey x.1 (l.map Prod.fst) := by
  induction l with
  | nil => rfl
  | cons y ys ih =>
    by_cases hxy : x.1.epoch ≤ y.1.epoch
    · simp [insertPair, insertKey, hxy]
    · simp [insertPair, insertKey, hxy, ih]

lemma map_fst_sortPairs (l : PSeries) :
    (sortPairs l).map Prod.fst = sortKeys (l.map Prod.fst) := by
  induction l with
  | nil => rfl
  | cons x xs ih => simp [sortPairs, sortKeys, map_fst_insertPair, ih]

/-- A successful `_parse_time_series_data` run decomposes into the first
matching key, a fully parsed index and fully parsed float rows. -/
lemma parse_ok_shape (data : Payload) (p : Period) (c a : Bool) (pts : PSeries)
    (h : parse_time_series_data data p c a = Except.ok pts) :
    ∃ key rest idx rows,
      time_series_keys data = key :: rest ∧
      optMapM (fun kv => pd_to_datetime kv.1) ((List.lookup key data).getD []) = some idx ∧
      optMapM parse_row ((List.lookup key data).getD []) = some rows ∧
      pts = sortPairs (idx.zip
        (rows.map (fun r => List.lookup (price_column c p a) r))) := by
  cases hk : time_series_keys data with
  | nil => simp [parse_time_series_data, hk] at h
  | cons key rest =>
    refine ⟨key, rest, ?_⟩
    simp only [parse_time_series_data, hk] at h
    cases hidx : optMapM (fun kv => pd_to_datetime kv.1) ((List.lookup key data).getD []) with
    | none => simp [parse_block, hidx] at h
    | some idx =>
      cases hrows : optMapM parse_row ((List.lookup key data).getD []) with
      | none => simp [parse_block, hidx, hrows] at h
      | some rows =>
        refine ⟨idx, rows, rfl, rfl, rfl, ?_⟩
        simp only [parse_block, hidx, hrows] at h
        by_cases hcol : (block_columns ((List.lookup key data).getD [])).contains
            (price_column c p a)
        · rw [if_pos hcol] at h
          exact (Except.ok.injEq _ _ ▸ h).symm
        · rw [if_neg hcol] at h
          simp at h

/--
C9 (amended): normalization parses every timestamp string through the same
`pd.to_datetime` call, independent of the asset class — timezone-awareness
is determined by the string alone, so two successful runs of the same
payload under any two asset-class/adjusted settings produce identical
timestamp indexes; on success no row is dropped (the series has one point
per payload row) and every produced timestamp is `pd.to_datetime` of one of
the block's raw strings.  Unparseable rows make the run fail instead.
-/
theorem c9_uniform_timestamp_parse (data : Payload) (p : Period)
    (c₁ a₁ c₂ a₂ : Bool) (pts₁ pts₂ : PSeries)
    (h₁ : parse_time_series_data data p c₁ a₁ = Except.ok pts₁)
    (h₂ : parse_time_series_data data p c₂ a₂ = Except.ok pts₂) :
    pts₁.map Prod.fst = pts₂.map Prod.fst ∧
    (∀ key rest, time_series_keys data = key :: rest →
      pts₁.length = ((List.lookup key data).getD []).length ∧
      ∀ pt ∈ pts₁, ∃ s ∈ ((List.lookup key data).getD []).map Prod.fst,
        pd_to_datetime s = some pt.1) := by
  obtain ⟨k₁, r₁, idx₁, rows₁, hk₁, hidx₁, hrows₁, hpts₁⟩ := parse_ok_shape _ _ _ _ _ h₁
  obtain ⟨k₂, r₂, idx₂, rows₂, hk₂, hidx₂, hrows₂, hpts₂⟩ := parse_ok_shape _ _ _ _ _ h₂
  rw [hk₁] at hk₂
  obtain ⟨hke, hre⟩ := List.cons.injEq _ _ _ _ ▸ hk₂
  subst hke
  have hidxe : idx₁ = idx₂ := by
    have := hidx₁.symm.trans hidx₂
    exact Option.some.injEq _ _ ▸ this
  subst hidxe
  have hlen_idx : idx₁.length = ((List.lookup k₁ data).getD []).length :=
    optMapM_length _ hidx₁
  have hlen_rows₁ : rows₁.length = ((List.lookup k₁ data).getD []).length :=
    optMapM_length _ hrows₁
  have hlen_rows₂ : rows₂.length = ((List.lookup k₁ data).getD []).length :=
    optMapM_length _ hrows₂
  have hmap₁ : pts₁.map Prod.fst = sortKeys idx₁ := by
    rw [hpts₁, map_fst_sortPairs, List.map_fst_zip]
    simp [hlen_idx, hlen_rows₁]
  have hmap₂ : pts₂.map Prod.fst = sortKeys idx₁ := by
    rw [hpts₂, map_fst_sortPairs, List.map_fst_zip]
    simp [hlen_idx, hlen_rows₂]
  refine ⟨hmap₁.trans hmap₂.symm, ?_⟩
  intro key rest hkk
  rw [hk₁] at hkk
  obtain ⟨hke2, _⟩ := List.cons.injEq _ _ _ _ ▸ hkk
  subst hke2
  constructor
  · rw [hpts₁, sortPairs_length, List.length_zip]
    simp [hlen_idx, hlen_rows₁]
  · intro pt hpt
    rw [hpts₁, mem_sortPairs] at hpt
    obtain ⟨t, v⟩ := pt
    have hz := List.of_mem_zip hpt
    obtain ⟨kv, hkv, hf⟩ := optMapM_mem _ hidx₁ t hz.1
    exact ⟨kv.1, List.mem_map_of_mem Prod.fst hkv, hf⟩

/-- The spec's end-to-end example payload (section 8), with the provider's
naive date strings; values kept integral. -/
def examplePayload : Payload :=
  [("Meta Data", []),
   ("Time Series (Digital Currency Daily)",
     [("2024-01-02", [("4. close", "42000"), ("5. adjusted close", "42100")]),
      ("2024-01-01", [("4. close", "41000"), ("5. adjusted close", "41100")])])]

/-- What normalizing `examplePayload` with the close column produces. -/
def examplePtsClose : PSeries :=
  [(Timestamp.mk 3238404100000 false, some 41000),
   (Timestamp.mk 3238404200000 false, some 42000)]

/-- What normalizing `examplePayload` with the adjusted-close column
produces. -/
def examplePtsAdjusted : PSeries :=
  [(Timestamp.mk 3238404100000 false, some 41100),
   (Timestamp.mk 3238404200000 false, some 42100)]

/--
C9 counterexample: the claim says crypto rows parse to timezone-aware
timestamps.  Normalizing the crypto payload of the spec's own section-8
example (`is_crypto = true`), the run succeeds and every produced timestamp
is naive (`tzAware = false`): the code applies the same `pd.to_datetime`
to both asset classes and the provider's strings carry no offset.
-/
theorem c9_counterexample :
    parse_time_series_data examplePayload Period.DAILY true true =
      Except.ok examplePtsClose ∧
    examplePtsClose.map (fun pt => pt.1.tzAware) = [false, false] :=
  ⟨rfl, rfl⟩

theorem c9_uniform_timestamp_parse_witness :
    (parse_time_series_data examplePayload Period.DAILY true true =
        Except.ok examplePtsClose ∧
      parse_time_series_data examplePayload Period.DAILY false true =
        Except.ok examplePtsAdjusted) ∧
    (examplePtsClose.map Prod.fst = examplePtsAdjusted.map Prod.fst ∧
      (∀ key rest, time_series_keys examplePayload = key :: rest →
        examplePtsClose.length = ((List.lookup key examplePayload).getD []).length ∧
        ∀ pt ∈ examplePtsClose,
          ∃ s ∈ ((List.lookup key examplePayload).getD []).map Prod.fst,
            pd_to_datetime s = some pt.1)) :=
  ⟨⟨rfl, rfl⟩,
   c9_uniform_timestamp_parse examplePayload Period.DAILY true true false true
     examplePtsClose examplePtsAdjusted rfl rfl⟩

lemma exMapM_length (f : α → Except ε β) :
    ∀ {l : List α} {bs : List β}, exMapM f l = Except.ok bs → bs.length = l.length := by
  intro l
  induction l with
  | nil =>
    intro bs hl
    simp [exMapM] at hl
    simp [hl]
  | cons x xs ih =>
    intro bs hl
    cases hfa : f x with
    | error e => simp [exMapM, hfa] at hl
    | ok b =>
      cases hrest : exMapM f xs with
      | error e => simp [exMapM, hfa, hrest] at hl
      | ok bs2 =>
        simp [exMapM, hfa, hrest] at hl
        simp [hl.symm, ih hrest]

lemma table_rows_cons (s0 : PSeries) (rest : List PSeries) :
    table_rows (s0 :: rest) =
      (s0.map Prod.fst).filterMap (fun t =>
        if ((s0 :: rest).map (fun s => lookupTs s t)).all Option.isSome then
          some (t, (s0 :: rest).map (fun s => lookupTs s t))
        else none) := rfl

lemma lookupTs_isSome_iff (s : PSeries) (t : Timestamp)
    (hval : ∀ pt ∈ s, Option.isSome (pt : Timestamp × Option Rat).2 = true) :
    (lookupTs s t).isSome = true ↔ t ∈ s.map Prod.fst := by
  constructor
  · intro hsome
    cases hf : s.find? (fun p => p.1 == t) with
    | none => simp [lookupTs, hf] at hsome
    | some q =>
      have hq1 : q.1 = t := by
        have := List.find?_some hf
        simpa using this
      exact List.mem_map.mpr ⟨q, List.mem_of_find?_eq_some hf, hq1⟩
  · intro hmem
    obtain ⟨q, hq, hq1⟩ := List.mem_map.mp hmem
    have hex : (s.find? (fun p => p.1 == t)).isSome = true := by
      rw [List.find?_isSome]
      exact ⟨q, hq, by simp [hq1]⟩
    cases hf : s.find? (fun p => p.1 == t) with
    | none => rw [hf] at hex; simp at hex
    | some q2 =>
      have hq2 : q2 ∈ s := List.mem_of_find?_eq_some hf
      simp [lookupTs, hf]
      exact hval q2 hq2

/--
C7: when every per-symbol fetch over a non-empty symbol list succeeds (and
the fetched series carry no NaN cells), `get_assets` succeeds, its columns
are the input symbols in input order, and a timestamp names a row of the
table exactly when it occurs in every constituent series (inner join /
dropna semantics).
-/
theorem c7_inner_join (fetch : String → Except AVError PSeries)
    (symbols : List String) (dfs : List PSeries)
    (hne : symbols ≠ [])
    (hok : exMapM fetch symbols = Except.ok dfs)
    (hval : ∀ s ∈ dfs, ∀ pt ∈ s, Option.isSome (pt : Timestamp × Option Rat).2 = true) :
    ∃ rows, get_assets fetch symbols = Except.ok (symbols, rows) ∧
      ∀ t : Timestamp, (∃ vs, (t, vs) ∈ rows) ↔ (∀ s ∈ dfs, t ∈ s.map Prod.fst) := by
  obtain ⟨sym0, syms, rfl⟩ : ∃ x xs, symbols = x :: xs := by
    cases symbols with
    | nil => exact absurd rfl hne
    | cons x xs => exact ⟨x, xs, rfl⟩
  refine ⟨table_rows dfs, by simp [get_assets, hok], ?_⟩
  obtain ⟨s0, rest, rfl⟩ : ∃ s0 rest, dfs = s0 :: rest := by
    have hl := exMapM_length fetch hok
    cases dfs with
    | nil => simp at hl
    | cons s0 rest => exact ⟨s0, rest, rfl⟩
  intro t
  rw [table_rows_cons]
  constructor
  · rintro ⟨vs, hmem⟩
    obtain ⟨t2, ht2, hf⟩ := List.mem_filterMap.mp hmem
    split at hf
    case isTrue hall =>
      simp only [Option.some.injEq, Prod.mk.injEq] at hf
      obtain ⟨hte, _⟩ := hf
      subst hte
      intro s hs
      have hsome : (lookupTs s t2).isSome = true :=
        List.all_eq_true.mp hall (lookupTs s t2)
          (List.mem_map_of_mem (fun s => lookupTs s t2) hs)
      exact (lookupTs_isSome_iff s t2 (hval s hs)).mp hsome
    case isFalse hnall =>
      simp at hf
  · intro hall
    have ht0 : t ∈ s0.map Prod.fst := hall s0 (List.mem_cons_self s0 rest)
    have hcond : (((s0 :: rest).map (fun s => lookupTs s t)).all Option.isSome) = true := by
      rw [List.all_eq_true]
      intro v hv
      obtain ⟨s, hs, hveq⟩ := List.mem_map.mp hv
      rw [← hveq]
      exact (lookupTs_isSome_iff s t (hval s hs)).mpr (hall s hs)
    refine ⟨(s0 :: rest).map (fun s => lookupTs s t), ?_⟩
    refine List.mem_filterMap.mpr ⟨t, ht0, ?_⟩
    rw [if_pos hcond]

/-- Concrete fetch for the spec's two-symbol example: A has timestamps
{1, 2, 3} and B has {2, 3, 4}. -/
def c7Fetch : String → Except AVError PSeries := fun s =>
  if s = "A" then
    Except.ok [(Timestamp.mk 1 false, some 10), (Timestamp.mk 2 false, some 20),
               (Timestamp.mk 3 false, some 30)]
  else if s = "B" then
    Except.ok [(Timestamp.mk 2 false, some 200), (Timestamp.mk 3 false, some 300),
               (Timestamp.mk 4 false, some 400)]
  else Except.error AVError.keyError

/-- The two series `c7Fetch` returns for ["A", "B"]. -/
def c7Dfs : List PSeries :=
  [[(Timestamp.mk 1 false, some 10), (Timestamp.mk 2 false, some 20),
    (Timestamp.mk 3 false, some 30)],
   [(Timestamp.mk 2 false, some 200), (Timestamp.mk 3 false, some 300),
    (Timestamp.mk 4 false, some 400)]]

theorem c7_inner_join_witness :
    ((["A", "B"] : List String) ≠ [] ∧
      exMapM c7Fetch ["A", "B"] = Except.ok c7Dfs ∧
      (∀ s ∈ c7Dfs, ∀ pt ∈ s, Option.isSome (pt : Timestamp × Option Rat).2 = true)) ∧
    (∃ rows, get_assets c7Fetch ["A", "B"] = Except.ok (["A", "B"], rows) ∧
      ∀ t : Timestamp, (∃ vs, (t, vs) ∈ rows) ↔ (∀ s ∈ c7Dfs, t ∈ s.map Prod.fst)) ∧
    get_assets c7Fetch ["A", "B"] =
      Except.ok (["A", "B"],
        [(Timestamp.mk 2 false, [some 20, some 200]),
         (Timestamp.mk 3 false, [some 30, some 300])]) :=
  ⟨⟨by decide, rfl, by decide⟩,
   c7_inner_join c7Fetch ["A", "B"] c7Dfs (by decide) rfl (by decide),
   rfl⟩

end AV
